import Mathlib

/-!
Verification development for the `apollo-server-cache-directive` package.

The core module (`src/index.ts`, class `CacheDirective`) is embedded
shallowly: JavaScript values become the inductive `Js`, the GraphQL AST
nodes the directive reader inspects become `Argument` / `DirectiveNode` /
`FieldNode`, and the asynchronous resolver installed by
`visitFieldDefinition` becomes the event-trace function `fieldResolve`.
The external key-value store is modelled as an oracle `store : Nat → Option Js`
giving, in order, the (JSON-parsed) content returned by successive
`cache.get` calls; writes, sleeps and resolver invocations are recorded
in an event trace.  The MD5 digest from Node's `crypto` module is an
external collaborator and is passed in as a function parameter.
-/

namespace ApolloCacheDirective

/-- Model of a JavaScript value as far as this package manipulates them:
`undef` is the JavaScript `undefined`, distinct from JSON `null`.
Numbers are modelled as integers (the package only handles integer
configuration values and black-box payloads). -/
inductive Js where
  | undef
  | null
  | bool (b : Bool)
  | num (n : Int)
  | str (s : String)
  | arr (xs : List Js)
  | obj (fields : List (String × Js))

/-- Property access `v[p]` on a JavaScript value: an object yields the
first field with that name (or `undefined`), every non-object yields
`undefined`.  (JavaScript would throw on `null`/`undefined` receivers;
no execution modelled here performs such an access.) -/
def Js.getProp : Js → String → Js
  | .obj fields, p =>
      match fields.find? (fun f => f.1 = p) with
      | some f => f.2
      | none => Js.undef
  | _, _ => Js.undef

/-- JavaScript strict equality `v === s` against a string literal. -/
def Js.strEq : Js → String → Bool
  | .str t, s => t == s
  | _, _ => false

/-- JavaScript strict equality `v === undefined`. -/
def Js.isUndef : Js → Bool
  | Js.undef => true
  | _ => false

/-- Split of a character list at a separator character; the result
always has at least one (possibly empty) component. -/
def splitChar (sep : Char) : List Char → List (List Char)
  | [] => [[]]
  | c :: cs =>
      if c = sep then [] :: splitChar sep cs
      else
        match splitChar sep cs with
        | [] => [[c]]
        | r :: rs => (c :: r) :: rs

/-- JavaScript `String.prototype.split` with a one-character separator
and no limit: `""` yields `[""]`, adjacent separators yield empty
components. -/
def jsSplit (sep : Char) (s : String) : List String :=
  (splitChar sep s.data).map String.mk

/-- JavaScript `String.prototype.trim` (ASCII whitespace). -/
def jsTrim (s : String) : String :=
  String.mk (((s.data.dropWhile Char.isWhitespace).reverse.dropWhile
    Char.isWhitespace).reverse)

/-- JavaScript `Array.prototype.join(",")`, also the element separator used by
`JSON.stringify` for arrays and objects. -/
def joinComma : List String → String
  | [] => ""
  | [s] => s
  | s :: rest => s ++ "," ++ joinComma rest

/-- Escape of one character inside a JSON string literal (quote and
backslash; control-character escapes are not needed for the values
exercised here). -/
def jsonEscapeChar (c : Char) : String :=
  if c = '"' then "\\\"" else if c = '\\' then "\\\\" else String.singleton c

/-- A JSON string literal. -/
def jsonQuote (s : String) : String :=
  "\"" ++ String.join (s.toList.map jsonEscapeChar) ++ "\""

mutual

/-- JavaScript `JSON.stringify`: `none` models the `undefined` result
(produced exactly for a top-level `undefined`). -/
def stringify : Js → Option String
  | Js.undef => none
  | .null => some "null"
  | .bool true => some "true"
  | .bool false => some "false"
  | .num n => some (toString n)
  | .str s => some (jsonQuote s)
  | .arr xs => some ("[" ++ joinComma (stringifyElems xs) ++ "]")
  | .obj fields => some ("\x7b" ++ joinComma (stringifyFields fields) ++ "\x7d")

/-- Array elements under `JSON.stringify`: an `undefined` element is
serialized as `null`. -/
def stringifyElems : List Js → List String
  | [] => []
  | x :: xs =>
      (match stringify x with
       | some s => s
       | none => "null") :: stringifyElems xs

/-- Object fields under `JSON.stringify`: a field whose value is
`undefined` is dropped. -/
def stringifyFields : List (String × Js) → List String
  | [] => []
  | f :: fs =>
      match stringify f.2 with
      | some s => (jsonQuote f.1 ++ ":" ++ s) :: stringifyFields fs
      | none => stringifyFields fs

end

/-! ## GraphQL AST fragments inspected by the directive reader -/

/-- The `value` node of a directive argument, as far as
`getDirectiveArgumentByName` inspects it: `strLike` covers the AST kinds
whose `.value` field is a string (IntValue, FloatValue, StringValue,
EnumValue); `boolVal` is BooleanValue, whose `.value` is a boolean;
`listVal` is ListValue, which has no `.value` field; `otherKind` covers
the remaining kinds with no string `.value` (NullValue, ObjectValue,
Variable). -/
inductive ArgValue where
  | strLike (s : String)
  | boolVal (b : Bool)
  | listVal (vs : List ArgValue)
  | otherKind

/-- One entry of a directive node's `arguments` array. -/
structure Argument where
  kind : String
  name : String
  value : ArgValue

/-- A directive node of the schema AST.  `arguments` is optional in the
AST type, hence the `Option`. -/
structure DirectiveNode where
  kind : String
  name : String
  arguments : Option (List Argument)

/-- The `astNode` of a field definition, restricted to what
`getCacheDirective` reads: its (optional) directive list. -/
structure FieldNode where
  directives : Option (List DirectiveNode)

/-- A GraphQL field as seen by `visitFieldDefinition`: the schema AST
node (optional) carrying the declared directives. -/
structure Field where
  astNode : Option FieldNode

/-- Query metadata (`info`), restricted to the one member the package
reads: `variableValues`. -/
structure Info where
  variableValues : Js

/-! ## Directive argument readers -/

/-- Source `getDirectiveArgumentByName`: first argument node named `name`
(guarded by `Array.isArray(directive.arguments)` and the
`kind === 'Argument'` filter); yields its `.value.value` trimmed when
that is a string, `undefined` (`none`) otherwise. -/
def getDirectiveArgumentByName (directive : DirectiveNode) (name : String) :
    Option String :=
  match directive.arguments with
  | none => none
  | some args =>
      match (args.filter fun a => a.kind == "Argument" && a.name == name).head? with
      | some argument =>
          match argument.value with
          | .strLike s => some (jsTrim s)
          | _ => none
      | none => none

/-- Longest leading run of decimal digits of a character list. -/
def leadingDigits : List Char → List Char
  | c :: cs => if c.isDigit then c :: leadingDigits cs else []
  | [] => []

/-- Numeric value of a digit list. -/
def digitsVal (ds : List Char) : Int :=
  Int.ofNat (ds.foldl (fun n c => 10 * n + (c.toNat - 48)) 0)

/-- JavaScript `parseInt(s, 10)`: skip leading whitespace, optional
sign, then the longest digit prefix; `none` models `NaN`. -/
def parseIntJs (s : String) : Option Int :=
  match (jsTrim s).data with
  | '-' :: cs =>
      match leadingDigits cs with
      | [] => none
      | ds => some (- digitsVal ds)
  | '+' :: cs =>
      match leadingDigits cs with
      | [] => none
      | ds => some (digitsVal ds)
  | cs =>
      match leadingDigits cs with
      | [] => none
      | ds => some (digitsVal ds)

/-- Source `getNumericDirectiveArgumentByName`: the declared value through
`parseInt(value, 10)`, or the supplied default when absent.  `none`
models the JavaScript `NaN`. -/
def getNumericDirectiveArgumentByName (directive : DirectiveNode) (name : String)
    (default : Int) : Option Int :=
  match getDirectiveArgumentByName directive name with
  | none => some default
  | some value => parseIntJs value

/-- Source `getStringDirectiveArgumentByName`: the declared value, or the
supplied default when absent. -/
def getStringDirectiveArgumentByName (directive : DirectiveNode) (name : String)
    (default : String) : String :=
  match getDirectiveArgumentByName directive name with
  | none => default
  | some value => value

/-- Source `getCacheDirective`: the LAST directive node named `cache`
(`filter(...).pop()`), guarded by the presence of `astNode` and of its
`directives` array. -/
def getCacheDirective (field : Field) : Option DirectiveNode :=
  match field.astNode with
  | none => none
  | some node =>
      match node.directives with
      | none => none
      | some ds =>
          (ds.filter fun d => d.kind == "Directive" && d.name == "cache").getLast?

/-- Source `hasCacheDirective`. -/
def hasCacheDirective (field : Field) : Bool :=
  (getCacheDirective field).isSome

/-- Source `isSharedCache`: the `type` argument (default `SHARED`) equals
`SHARED`. -/
def isSharedCache (directive : DirectiveNode) : Bool :=
  getStringDirectiveArgumentByName directive "type" "SHARED" == "SHARED"

/-- Source `isScopedCache`: the `type` argument (default `SHARED`) equals
`SCOPED`. -/
def isScopedCache (directive : DirectiveNode) : Bool :=
  getStringDirectiveArgumentByName directive "type" "SHARED" == "SCOPED"

/-! ## Cache key compiler -/

/-- The split `k.split('.', 2)` destructured as `[source, prop]`: the limit-2
split keeps the first two dot-separated components, `prop` is
`undefined` when there is no dot. -/
def splitDot2 (k : String) : String × Option String :=
  match jsSplit '.' k with
  | [] => (k, none)
  | [s] => (s, none)
  | s :: p :: _ => (s, some p)

/-- The `sources` record of `compileCacheKey`: indexing with an
unrecognized name yields `undefined`. -/
def sourceLookup (parent args vars : Js) (source : String) : Js :=
  if source = "parent" then parent
  else if source = "args" then args
  else if source = "vars" then vars
  else Js.undef

/-- The push performed for one `cacheKey` token by the `forEach` body of
`compileCacheKey`: a bare token pushes the whole source (possibly
`undefined` for an unrecognized name); a dotted token pushes the
property, but only when the source is one of `parent`/`args`/`vars`. -/
def comboStep (parent args vars : Js) (combo : List Js) (k : String) : List Js :=
  match splitDot2 k with
  | (source, none) => combo ++ [sourceLookup parent args vars source]
  | (source, some prop) =>
      if source = "parent" ∨ source = "args" ∨ source = "vars" then
        combo ++ [(sourceLookup parent args vars source).getProp prop]
      else combo

/-- The token list of the `cacheKey` argument:
`getStringDirectiveArgumentByName(directive, 'cacheKey', 'parent,args,vars').split(',')`. -/
def cacheKeyTokens (directive : DirectiveNode) : List String :=
  jsSplit ',' (getStringDirectiveArgumentByName directive "cacheKey" "parent,args,vars")

/-- Source `compileCacheKey`: builds `combo` by iterating the token list, then
returns the `ch-` prefix followed by the digest of `JSON.stringify(combo)`.
The MD5 hex digest from Node's `crypto` module is an external
collaborator, passed in as `md5`. -/
def compileCacheKey (md5 : String → String) (directive : DirectiveNode)
    (parent args : Js) (info : Info) : String :=
  let combo := (cacheKeyTokens directive).foldl
    (comboStep parent args info.variableValues) []
  "ch-" ++ md5 ("[" ++ joinComma (stringifyElems combo) ++ "]")

/-! ## Coordinator: store-mediated state machine

The external key-value store is modelled by an oracle
`store : Nat → Option Js` giving the (JSON-parsed) content returned by
the i-th `cache.get` performed by this field evaluation (`none` is a
store miss).  Every observable action is recorded in an event trace. -/

/-- One observable action of a field evaluation: a store read (with the
content it returned), a store write (content and ttl option), a sleep,
or an invocation of the wrapped resolver with its four positional
arguments. -/
inductive Event where
  | get (key : String) (res : Option Js)
  | set (key : String) (content : Js) (ttl : Option Int)
  | sleep (ms : Option Int)
  | invoke (parent args ctx : Js) (info : Info)

/-- Source `readFromCache`: reads the store; on a SHARED `processing` entry it
sleeps `pingInterval` and recurses on the next oracle read; on a SHARED
`completed` entry it yields `content.value`; on a SCOPED hit it yields
`content.value`; otherwise `undefined`.  The `fuel` bounds the recursion
depth (the source recursion is unbounded); `none` models
non-termination within the given fuel.  Yields the result together with
the trace of events performed. -/
def readFromCache (directive : DirectiveNode) (key : String)
    (store : Nat → Option Js) (i : Nat) : Nat → Option (Js × List Event)
  | 0 => none
  | fuel + 1 =>
      match store i with
      | none => some (Js.undef, [.get key none])
      | some content =>
          if isSharedCache directive then
            if (content.getProp "status").strEq "processing" then
              let ms := getNumericDirectiveArgumentByName directive "pingInterval" 1000
              match readFromCache directive key store (i + 1) fuel with
              | none => none
              | some (r, tr) =>
                  some (r, .get key (some content) :: .sleep ms :: tr)
            else if (content.getProp "status").strEq "completed" then
              some (content.getProp "value", [.get key (some content)])
            else
              some (Js.undef, [.get key (some content)])
          else if isScopedCache directive then
            some (content.getProp "value", [.get key (some content)])
          else
            some (Js.undef, [.get key (some content)])

/-- The resolver function installed by `visitFieldDefinition`, as a
function of the original resolver (`resolve`, which may reject: `Except`)
and the store oracle.  The match on `getCacheDirective` realizes the
`hasCacheDirective` test together with the subsequent directive fetch
(the two agree by definition).  Store writes record the structured
content; the source serializes it with `JSON.stringify` before calling
`cache.set`. -/
def fieldResolve (md5 : String → String) (field : Field)
    (resolve : Js → Js → Js → Info → Except Js Js)
    (store : Nat → Option Js) (fuel : Nat)
    (parent args ctx : Js) (info : Info) :
    Option (Except Js Js × List Event) :=
  match getCacheDirective field with
  | some directive =>
      let key := compileCacheKey md5 directive parent args info
      match readFromCache directive key store 0 fuel with
      | none => none
      | some (cache, tr) =>
          if cache.isUndef then
            let ttl := getNumericDirectiveArgumentByName directive "ttl" 900
            let preTr :=
              if isSharedCache directive then
                let timeout :=
                  getNumericDirectiveArgumentByName directive "pollingTimeout" 900
                [Event.set key (.obj [("status", .str "processing")]) timeout]
              else []
            match resolve parent args ctx info with
            | .error e =>
                some (.error e, tr ++ preTr ++ [.invoke parent args ctx info])
            | .ok result =>
                let cacheData :=
                  if isSharedCache directive then
                    Js.obj [("status", .str "completed"), ("value", result)]
                  else result
                some (.ok result,
                  tr ++ preTr ++
                    [.invoke parent args ctx info, .set key cacheData ttl])
          else some (.ok cache, tr)
  | none =>
      match resolve parent args ctx info with
      | .error e => some (.error e, [.invoke parent args ctx info])
      | .ok result => some (.ok result, [.invoke parent args ctx info])

/-! ## Derived notions used by the statements -/

/-- Number of resolver invocations recorded in a trace. -/
def countInvokes : List Event → Nat
  | [] => 0
  | .invoke _ _ _ _ :: tr => countInvokes tr + 1
  | _ :: tr => countInvokes tr

/-- Number of store writes recorded in a trace. -/
def countSets : List Event → Nat
  | [] => 0
  | .set _ _ _ :: tr => countSets tr + 1
  | _ :: tr => countSets tr

/-- Number of store reads recorded in a trace. -/
def countGets : List Event → Nat
  | [] => 0
  | .get _ _ :: tr => countGets tr + 1
  | _ :: tr => countGets tr

/-- Whether a store read observed an entry with status `processing`. -/
def isProcessingRead : Option Js → Bool
  | some c => (c.getProp "status").strEq "processing"
  | none => false

/-- The trace produced by `k` rounds of SHARED-mode polling starting at
oracle index `i`: each round reads the store and sleeps `ms`. -/
def pollTrace (key : String) (ms : Option Int) (store : Nat → Option Js)
    (i : Nat) : Nat → List Event
  | 0 => []
  | k + 1 => .get key (store i) :: .sleep ms :: pollTrace key ms store (i + 1) k

/-- The values one token contributes to the combination: a bare token
contributes the whole source (`undefined` for an unrecognized name); a
dotted token contributes the property when the source is recognized and
nothing otherwise. -/
def tokenValues (parent args vars : Js) (k : String) : List Js :=
  match splitDot2 k with
  | (source, none) => [sourceLookup parent args vars source]
  | (source, some prop) =>
      if source = "parent" ∨ source = "args" ∨ source = "vars" then
        [(sourceLookup parent args vars source).getProp prop]
      else []

/-- Recursive characterization of the `combo` array built by
`compileCacheKey`: the values extracted for the tokens, in key-spec
order. -/
def comboOfTokens (parent args vars : Js) : List String → List Js
  | [] => []
  | k :: ks => tokenValues parent args vars k ++ comboOfTokens parent args vars ks

/-- The serialized combination hashed by `compileCacheKey`:
`JSON.stringify` of the extracted-value array. -/
def serializedCombo (directive : DirectiveNode) (parent args vars : Js) : String :=
  "[" ++ joinComma (stringifyElems
    (comboOfTokens parent args vars (cacheKeyTokens directive))) ++ "]"

/-! ## Concrete schema fixtures for the closed statements -/

/-- A `@cache(type: SCOPED)` directive node. -/
def dScopedEx : DirectiveNode :=
  ⟨"Directive", "cache", some [⟨"Argument", "type", .strLike "SCOPED"⟩]⟩

/-- A `@cache` directive node with no arguments (all defaults). -/
def dSharedEx : DirectiveNode := ⟨"Directive", "cache", some []⟩

/-- A `@cache(pollingTimeout: 30)` directive node. -/
def dPolling30Ex : DirectiveNode :=
  ⟨"Directive", "cache", some [⟨"Argument", "pollingTimeout", .strLike "30"⟩]⟩

/-- A `@cache(cacheKey: "parent.id")` directive node (string form). -/
def dKeyStrEx : DirectiveNode :=
  ⟨"Directive", "cache", some [⟨"Argument", "cacheKey", .strLike "parent.id"⟩]⟩

/-- A `@cache(cacheKey: ["parent.id"])` directive node (list form): the
ListValue AST node has no string `.value`. -/
def dKeyListEx : DirectiveNode :=
  ⟨"Directive", "cache", some [⟨"Argument", "cacheKey", .listVal [.strLike "parent.id"]⟩]⟩

/-- A field carrying the SCOPED directive. -/
def fScopedEx : Field := ⟨some ⟨some [dScopedEx]⟩⟩

/-- A field carrying the default (SHARED) directive. -/
def fSharedEx : Field := ⟨some ⟨some [dSharedEx]⟩⟩

/-- A field with no directives at all. -/
def fPlainEx : Field := ⟨some ⟨some []⟩⟩

/-- A field carrying the `@cache(pollingTimeout: 30)` directive. -/
def fPolling30Ex : Field := ⟨some ⟨some [dPolling30Ex]⟩⟩

/-- A stored `processing` marker, as read back from the store. -/
def procEntryEx : Js := .obj [("status", .str "processing")]

/-- A stored `completed` entry with value `"hit"`, as read back from the
store. -/
def completedEntryEx : Js := .obj [("status", .str "completed"), ("value", .str "hit")]

/-- A store oracle whose first read observes a `processing` marker and
whose later reads observe a `completed` entry. -/
def pollStoreEx : Nat → Option Js :=
  fun i => if i = 0 then some procEntryEx else some completedEntryEx

/-- A resolver that always succeeds with the number 42. -/
def res42 : Js → Js → Js → Info → Except Js Js := fun _ _ _ _ => .ok (.num 42)

/-- Example parent value. -/
def pEx : Js := .obj [("id", .str "1")]

/-- Example argument mapping. -/
def aEx : Js := .obj []

/-- Example execution context. -/
def cEx : Js := .null

/-- Example query metadata. -/
def iEx : Info := ⟨.obj []⟩

/-- The always-empty store oracle. -/
def emptyStore : Nat → Option Js := fun _ => none

/-- A non-cache directive node (e.g. `@deprecated`). -/
def dOtherEx : DirectiveNode := ⟨"Directive", "deprecated", some []⟩

/-- A `@cache(cacheKey: "parent,foo")` directive node: `foo` is a bare
token that names no recognized source. -/
def dKeyFooEx : DirectiveNode :=
  ⟨"Directive", "cache", some [⟨"Argument", "cacheKey", .strLike "parent,foo"⟩]⟩

/-- A `@cache(cacheKey: "parent")` directive node. -/
def dKeyParentEx : DirectiveNode :=
  ⟨"Directive", "cache", some [⟨"Argument", "cacheKey", .strLike "parent"⟩]⟩

/-! ## Helper lemmas -/

theorem comboStep_eq (parent args vars : Js) (combo : List Js) (k : String) :
    comboStep parent args vars combo k = combo ++ tokenValues parent args vars k := by
  unfold comboStep tokenValues
  rcases h : splitDot2 k with ⟨source, _ | prop⟩
  · rfl
  · dsimp only
    split <;> simp

theorem foldl_comboStep (parent args vars : Js) :
    ∀ (ks : List String) (acc : List Js),
      ks.foldl (comboStep parent args vars) acc =
        acc ++ comboOfTokens parent args vars ks := by
  intro ks
  induction ks with
  | nil => intro acc; simp [comboOfTokens]
  | cons k ks ih =>
      intro acc
      rw [List.foldl_cons, ih, comboStep_eq, comboOfTokens, List.append_assoc]

/-- The compiled key is the `ch-` prefix followed by the digest of the
serialization of the extracted values, in token order. -/
theorem compileCacheKey_eq (md5 : String → String) (directive : DirectiveNode)
    (parent args : Js) (info : Info) :
    compileCacheKey md5 directive parent args info =
      "ch-" ++ md5 (serializedCombo directive parent args info.variableValues) := by
  unfold compileCacheKey serializedCombo
  rw [foldl_comboStep]
  rfl

theorem comboOfTokens_append (parent args vars : Js) (A B : List String) :
    comboOfTokens parent args vars (A ++ B) =
      comboOfTokens parent args vars A ++ comboOfTokens parent args vars B := by
  induction A with
  | nil => simp [comboOfTokens]
  | cons k ks ih => simp [comboOfTokens, ih]

theorem stringifyElems_append (xs ys : List Js) :
    stringifyElems (xs ++ ys) = stringifyElems xs ++ stringifyElems ys := by
  induction xs with
  | nil => simp [stringifyElems]
  | cons x xs ih => simp [stringifyElems, ih]

theorem joinComma_cons (s : String) (r : List String) (h : r ≠ []) :
    joinComma (s :: r) = s ++ "," ++ joinComma r := by
  cases r with
  | nil => exact absurd rfl h
  | cons t ts => rfl

theorem joinComma_insert_length (e : String) (he : 0 < e.length) :
    ∀ (xs ys : List String),
      (joinComma (xs ++ ys)).length < (joinComma (xs ++ e :: ys)).length := by
  intro xs
  induction xs with
  | nil =>
      intro ys
      cases ys with
      | nil => simpa [joinComma] using he
      | cons y ys =>
          rw [List.nil_append, List.nil_append,
            joinComma_cons e (y :: ys) (by simp)]
          simp [String.length_append]
          omega
  | cons x xs ih =>
      intro ys
      rcases hxy : xs ++ ys with _ | ⟨z, zs⟩
      · have hx : xs = [] := by cases xs <;> simp_all
        have hy : ys = [] := by cases xs <;> simp_all
        subst hx; subst hy
        have : joinComma [x, e] = x ++ "," ++ e := rfl
        simp [joinComma, this, String.length_append]
        omega
      · have h2 : xs ++ ys ≠ [] := by rw [hxy]; simp
        have h1 : xs ++ e :: ys ≠ [] := by simp
        rw [List.cons_append, List.cons_append,
          joinComma_cons x _ h2, joinComma_cons x _ h1]
        have := ih ys
        simp [String.length_append]
        omega

theorem append_left_cancel_str (s x y : String) (h : s ++ x = s ++ y) : x = y := by
  have hd : s.data ++ x.data = s.data ++ y.data := by
    have := congrArg String.data h
    simpa using this
  have hxy := List.append_cancel_left hd
  cases x
  cases y
  exact congrArg String.mk hxy

theorem ne_of_length_ne (x y : String) (h : x.length ≠ y.length) : x ≠ y := by
  intro hxy
  exact h (by rw [hxy])

/-! Step equations for `readFromCache`. -/

theorem readFromCache_zero (directive : DirectiveNode) (key : String)
    (store : Nat → Option Js) (i : Nat) :
    readFromCache directive key store i 0 = none := rfl

theorem readFromCache_absent (directive : DirectiveNode) (key : String)
    (store : Nat → Option Js) (i fuel : Nat) (hs : store i = none) :
    readFromCache directive key store i (fuel + 1) =
      some (Js.undef, [.get key none]) := by
  simp only [readFromCache, hs]

theorem readFromCache_processing (directive : DirectiveNode) (key : String)
    (store : Nat → Option Js) (i fuel : Nat) (c : Js)
    (hs : store i = some c) (hsh : isSharedCache directive = true)
    (hp : (c.getProp "status").strEq "processing" = true) :
    readFromCache directive key store i (fuel + 1) =
      match readFromCache directive key store (i + 1) fuel with
      | none => none
      | some (r, tr) =>
          some (r, .get key (some c) ::
            .sleep (getNumericDirectiveArgumentByName directive "pingInterval" 1000) :: tr) := by
  simp only [readFromCache, hs, hsh, hp, if_true]

theorem readFromCache_completed (directive : DirectiveNode) (key : String)
    (store : Nat → Option Js) (i fuel : Nat) (c : Js)
    (hs : store i = some c) (hsh : isSharedCache directive = true)
    (hp : (c.getProp "status").strEq "processing" = false)
    (hc : (c.getProp "status").strEq "completed" = true) :
    readFromCache directive key store i (fuel + 1) =
      some (c.getProp "value", [.get key (some c)]) := by
  simp [readFromCache, hs, hsh, hp, hc]

theorem readFromCache_shared_other (directive : DirectiveNode) (key : String)
    (store : Nat → Option Js) (i fuel : Nat) (c : Js)
    (hs : store i = some c) (hsh : isSharedCache directive = true)
    (hp : (c.getProp "status").strEq "processing" = false)
    (hc : (c.getProp "status").strEq "completed" = false) :
    readFromCache directive key store i (fuel + 1) =
      some (Js.undef, [.get key (some c)]) := by
  simp [readFromCache, hs, hsh, hp, hc]

theorem readFromCache_scoped_hit (directive : DirectiveNode) (key : String)
    (store : Nat → Option Js) (i fuel : Nat) (c : Js)
    (hs : store i = some c) (hsh : isSharedCache directive = false)
    (hsc : isScopedCache directive = true) :
    readFromCache directive key store i (fuel + 1) =
      some (c.getProp "value", [.get key (some c)]) := by
  simp [readFromCache, hs, hsh, hsc]

/-- The function `readFromCache` performs no store writes and no resolver
invocations. -/
theorem readFromCache_pure (directive : DirectiveNode) (key : String)
    (store : Nat → Option Js) :
    ∀ (fuel i : Nat) (r : Js) (tr : List Event),
      readFromCache directive key store i fuel = some (r, tr) →
      countSets tr = 0 ∧ countInvokes tr = 0 := by
  intro fuel
  induction fuel with
  | zero =>
      intro i r tr h
      exact absurd h (by simp [readFromCache])
  | succ fuel ih =>
      intro i r tr h
      simp only [readFromCache] at h
      split at h
      · simp only [Option.some.injEq, Prod.mk.injEq] at h
        obtain ⟨rfl, rfl⟩ := h
        exact ⟨rfl, rfl⟩
      · split at h
        · split at h
          · split at h
            · exact absurd h (by simp)
            · rename_i r' tr' heq
              simp only [Option.some.injEq, Prod.mk.injEq] at h
              obtain ⟨rfl, rfl⟩ := h
              have := ih (i + 1) r' tr' heq
              simpa [countSets, countInvokes] using this
          · split at h
            · simp only [Option.some.injEq, Prod.mk.injEq] at h
              obtain ⟨rfl, rfl⟩ := h
              exact ⟨rfl, rfl⟩
            · simp only [Option.some.injEq, Prod.mk.injEq] at h
              obtain ⟨rfl, rfl⟩ := h
              exact ⟨rfl, rfl⟩
        · split at h
          · simp only [Option.some.injEq, Prod.mk.injEq] at h
            obtain ⟨rfl, rfl⟩ := h
            exact ⟨rfl, rfl⟩
          · simp only [Option.some.injEq, Prod.mk.injEq] at h
            obtain ⟨rfl, rfl⟩ := h
            exact ⟨rfl, rfl⟩

theorem isScopedCache_not_shared (directive : DirectiveNode)
    (h : isScopedCache directive = true) : isSharedCache directive = false := by
  unfold isScopedCache at h
  unfold isSharedCache
  have ht : getStringDirectiveArgumentByName directive "type" "SHARED" = "SCOPED" := by
    simpa using h
  rw [ht]
  rfl

/-- SHARED-mode polling, fully characterized: after `k` observations of
a `processing` marker (each followed by a `pingInterval` sleep and a
re-read), a non-`processing` observation terminates the recursion with
the stored `completed` value, or `undefined` otherwise. -/
theorem readFromCache_poll (directive : DirectiveNode) (key : String)
    (store : Nat → Option Js) (hsh : isSharedCache directive = true) :
    ∀ (k i fuel : Nat), k < fuel →
      (∀ j, j < k → isProcessingRead (store (i + j)) = true) →
      isProcessingRead (store (i + k)) = false →
      readFromCache directive key store i fuel =
        some ((match store (i + k) with
               | none => Js.undef
               | some c =>
                   if (c.getProp "status").strEq "completed" then c.getProp "value"
                   else Js.undef),
          pollTrace key
            (getNumericDirectiveArgumentByName directive "pingInterval" 1000)
            store i k ++ [.get key (store (i + k))]) := by
  intro k
  induction k with
  | zero =>
      intro i fuel hk hproc hterm
      obtain ⟨fuel, rfl⟩ : ∃ f, fuel = f + 1 := ⟨fuel - 1, by omega⟩
      rcases hs : store (i + 0) with _ | c
      · have hs' : store i = none := by simpa using hs
        rw [readFromCache_absent directive key store i fuel hs']
        simp [pollTrace, hs]
      · have hs' : store i = some c := by simpa using hs
        have hp : (c.getProp "status").strEq "processing" = false := by
          rw [hs] at hterm
          simpa [isProcessingRead] using hterm
        rcases hc : (c.getProp "status").strEq "completed" with _ | _
        · rw [readFromCache_shared_other directive key store i fuel c hs' hsh hp hc]
          simp [pollTrace, hs, hc]
        · rw [readFromCache_completed directive key store i fuel c hs' hsh hp hc]
          simp [pollTrace, hs, hc]
  | succ k ih =>
      intro i fuel hk hproc hterm
      obtain ⟨fuel, rfl⟩ : ∃ f, fuel = f + 1 := ⟨fuel - 1, by omega⟩
      have h0 : isProcessingRead (store i) = true := by
        have := hproc 0 (by omega)
        simpa using this
      rcases hs : store i with _ | c
      · rw [hs] at h0
        simp [isProcessingRead] at h0
      · rw [hs] at h0
        have hp : (c.getProp "status").strEq "processing" = true := by
          simpa [isProcessingRead] using h0
        rw [readFromCache_processing directive key store i fuel c hs hsh hp]
        have harith : i + (k + 1) = i + 1 + k := by omega
        have ih' := ih (i + 1) fuel (by omega)
          (fun j hj => by
            have := hproc (j + 1) (by omega)
            have he : i + (j + 1) = i + 1 + j := by omega
            rw [he] at this
            exact this)
          (by rw [← harith]; exact hterm)
        rw [ih']
        rw [pollTrace]
        rw [harith, hs]
        rfl


/-! Step equations for `fieldResolve`. -/

theorem fieldResolve_nodir (md5 : String → String) (field : Field)
    (resolve : Js → Js → Js → Info → Except Js Js) (store : Nat → Option Js)
    (fuel : Nat) (p a c : Js) (i : Info)
    (h : getCacheDirective field = none) :
    fieldResolve md5 field resolve store fuel p a c i =
      some (resolve p a c i, [.invoke p a c i]) := by
  unfold fieldResolve
  rw [h]
  rcases hr : resolve p a c i with e | v <;> rfl

theorem fieldResolve_hit (md5 : String → String) (field : Field) (d : DirectiveNode)
    (resolve : Js → Js → Js → Info → Except Js Js) (store : Nat → Option Js)
    (fuel : Nat) (p a c : Js) (i : Info) (cacheV : Js) (tr : List Event)
    (hdir : getCacheDirective field = some d)
    (hread : readFromCache d (compileCacheKey md5 d p a i) store 0 fuel =
      some (cacheV, tr))
    (hne : cacheV.isUndef = false) :
    fieldResolve md5 field resolve store fuel p a c i = some (.ok cacheV, tr) := by
  unfold fieldResolve
  rw [hdir]
  dsimp only
  rw [hread]
  dsimp only
  rw [hne]
  rfl

theorem fieldResolve_miss_shared_ok (md5 : String → String) (field : Field)
    (d : DirectiveNode) (resolve : Js → Js → Js → Info → Except Js Js)
    (store : Nat → Option Js) (fuel : Nat) (p a c : Js) (i : Info)
    (v : Js) (tr : List Event)
    (hdir : getCacheDirective field = some d)
    (hread : readFromCache d (compileCacheKey md5 d p a i) store 0 fuel =
      some (Js.undef, tr))
    (hsh : isSharedCache d = true)
    (hres : resolve p a c i = .ok v) :
    fieldResolve md5 field resolve store fuel p a c i =
      some (.ok v, tr ++
        [.set (compileCacheKey md5 d p a i) (.obj [("status", .str "processing")])
           (getNumericDirectiveArgumentByName d "pollingTimeout" 900),
         .invoke p a c i,
         .set (compileCacheKey md5 d p a i)
           (.obj [("status", .str "completed"), ("value", v)])
           (getNumericDirectiveArgumentByName d "ttl" 900)]) := by
  unfold fieldResolve
  rw [hdir]
  dsimp only
  rw [hread]
  dsimp only
  rw [hres, hsh]
  simp [Js.isUndef]

theorem fieldResolve_miss_shared_err (md5 : String → String) (field : Field)
    (d : DirectiveNode) (resolve : Js → Js → Js → Info → Except Js Js)
    (store : Nat → Option Js) (fuel : Nat) (p a c : Js) (i : Info)
    (e : Js) (tr : List Event)
    (hdir : getCacheDirective field = some d)
    (hread : readFromCache d (compileCacheKey md5 d p a i) store 0 fuel =
      some (Js.undef, tr))
    (hsh : isSharedCache d = true)
    (hres : resolve p a c i = .error e) :
    fieldResolve md5 field resolve store fuel p a c i =
      some (.error e, tr ++
        [.set (compileCacheKey md5 d p a i) (.obj [("status", .str "processing")])
           (getNumericDirectiveArgumentByName d "pollingTimeout" 900),
         .invoke p a c i]) := by
  unfold fieldResolve
  rw [hdir]
  dsimp only
  rw [hread]
  dsimp only
  rw [hres, hsh]
  simp [Js.isUndef]

theorem fieldResolve_miss_notshared_ok (md5 : String → String) (field : Field)
    (d : DirectiveNode) (resolve : Js → Js → Js → Info → Except Js Js)
    (store : Nat → Option Js) (fuel : Nat) (p a c : Js) (i : Info)
    (v : Js) (tr : List Event)
    (hdir : getCacheDirective field = some d)
    (hread : readFromCache d (compileCacheKey md5 d p a i) store 0 fuel =
      some (Js.undef, tr))
    (hsh : isSharedCache d = false)
    (hres : resolve p a c i = .ok v) :
    fieldResolve md5 field resolve store fuel p a c i =
      some (.ok v, tr ++
        [.invoke p a c i,
         .set (compileCacheKey md5 d p a i) v
           (getNumericDirectiveArgumentByName d "ttl" 900)]) := by
  unfold fieldResolve
  rw [hdir]
  dsimp only
  rw [hread]
  dsimp only
  rw [hres, hsh]
  simp [Js.isUndef]

theorem fieldResolve_miss_notshared_err (md5 : String → String) (field : Field)
    (d : DirectiveNode) (resolve : Js → Js → Js → Info → Except Js Js)
    (store : Nat → Option Js) (fuel : Nat) (p a c : Js) (i : Info)
    (e : Js) (tr : List Event)
    (hdir : getCacheDirective field = some d)
    (hread : readFromCache d (compileCacheKey md5 d p a i) store 0 fuel =
      some (Js.undef, tr))
    (hsh : isSharedCache d = false)
    (hres : resolve p a c i = .error e) :
    fieldResolve md5 field resolve store fuel p a c i =
      some (.error e, tr ++ [.invoke p a c i]) := by
  unfold fieldResolve
  rw [hdir]
  dsimp only
  rw [hread]
  dsimp only
  rw [hres, hsh]
  simp [Js.isUndef]


/-- Polling traces contain no resolver invocation. -/
theorem pollTrace_no_invoke (key : String) (ms : Option Int)
    (store : Nat → Option Js) :
    ∀ (k i : Nat), countInvokes (pollTrace key ms store i k) = 0 := by
  intro k
  induction k with
  | zero => intro i; rfl
  | succ k ih =>
      intro i
      rw [pollTrace]
      simp [countInvokes, ih (i + 1)]

/-- Polling traces contain no store write. -/
theorem pollTrace_no_set (key : String) (ms : Option Int)
    (store : Nat → Option Js) :
    ∀ (k i : Nat), countSets (pollTrace key ms store i k) = 0 := by
  intro k
  induction k with
  | zero => intro i; rfl
  | succ k ih =>
      intro i
      rw [pollTrace]
      simp [countSets, ih (i + 1)]

/-- A value strictly equal to one string literal is not strictly equal
to a different one. -/
theorem strEq_unique (v : Js) (s t : String) (hst : s ≠ t)
    (h : v.strEq s = true) : v.strEq t = false := by
  cases v <;> simp [Js.strEq] at h ⊢
  subst h
  exact hst

/-- A bare token naming no recognized source extracts `undefined`. -/
theorem tokenValues_bare_unknown (parent args vars : Js) (t : String)
    (hbare : splitDot2 t = (t, none))
    (hp : t ≠ "parent") (ha : t ≠ "args") (hv : t ≠ "vars") :
    tokenValues parent args vars t = [Js.undef] := by
  unfold tokenValues
  rw [hbare]
  dsimp only
  unfold sourceLookup
  rw [if_neg hp, if_neg ha, if_neg hv]

/-- A dotted token with an unrecognized source extracts nothing. -/
theorem tokenValues_dotted_unknown (parent args vars : Js) (t s pr : String)
    (hsplit : splitDot2 t = (s, some pr))
    (hp : s ≠ "parent") (ha : s ≠ "args") (hv : s ≠ "vars") :
    tokenValues parent args vars t = [] := by
  unfold tokenValues
  rw [hsplit]
  dsimp only
  rw [if_neg (by simp [hp, ha, hv])]

/-! ## Claim theorems -/

/-- C4: for every configuration and every (parent, args, vars) tuple,
two calls of the key compiler with identical inputs yield the same key
string, and that string is the fixed prefix `ch-` followed by the hex
digest of the deterministic serialization of the extracted values in
key-spec order. -/
theorem c4_key_compiler_deterministic (md5 : String → String)
    (directive : DirectiveNode) (p1 a1 : Js) (i1 : Info) (p2 a2 : Js) (i2 : Info)
    (hp : p1 = p2) (ha : a1 = a2) (hi : i1 = i2) :
    compileCacheKey md5 directive p1 a1 i1 = compileCacheKey md5 directive p2 a2 i2 ∧
    compileCacheKey md5 directive p1 a1 i1 =
      "ch-" ++ md5 (serializedCombo directive p1 a1 i1.variableValues) := by
  subst hp
  subst ha
  subst hi
  exact ⟨rfl, compileCacheKey_eq md5 directive p1 a1 i1⟩

theorem c4_key_compiler_deterministic_witness :
    compileCacheKey id dKeyStrEx pEx aEx iEx = compileCacheKey id dKeyStrEx pEx aEx iEx ∧
    compileCacheKey id dKeyStrEx pEx aEx iEx =
      "ch-" ++ id (serializedCombo dKeyStrEx pEx aEx iEx.variableValues) :=
  c4_key_compiler_deterministic id dKeyStrEx pEx aEx iEx pEx aEx iEx rfl rfl rfl

/-- C8: a field evaluation of a field with no cache configuration
invokes the original resolver exactly once with the unchanged four
positional inputs, returns its result unchanged, and performs no store
read or write. -/
theorem c8_unconfigured_passthrough (md5 : String → String) (field : Field)
    (resolve : Js → Js → Js → Info → Except Js Js) (store : Nat → Option Js)
    (fuel : Nat) (p a c : Js) (i : Info)
    (h : hasCacheDirective field = false) :
    fieldResolve md5 field resolve store fuel p a c i =
      some (resolve p a c i, [.invoke p a c i]) ∧
    countInvokes [.invoke p a c i] = 1 ∧
    countGets [.invoke p a c i] = 0 ∧
    countSets [.invoke p a c i] = 0 := by
  have hnone : getCacheDirective field = none := by
    unfold hasCacheDirective at h
    rcases hg : getCacheDirective field with _ | d
    · rfl
    · rw [hg] at h
      exact absurd h (by simp)
  exact ⟨fieldResolve_nodir md5 field resolve store fuel p a c i hnone, rfl, rfl, rfl⟩

theorem c8_unconfigured_passthrough_witness :
    fieldResolve id fPlainEx res42 emptyStore 1 pEx aEx cEx iEx =
      some (res42 pEx aEx cEx iEx, [.invoke pEx aEx cEx iEx]) ∧
    countInvokes [.invoke pEx aEx cEx iEx] = 1 ∧
    countGets [.invoke pEx aEx cEx iEx] = 0 ∧
    countSets [.invoke pEx aEx cEx iEx] = 0 :=
  c8_unconfigured_passthrough id fPlainEx res42 emptyStore 1 pEx aEx cEx iEx rfl

/-- C9: when a field node declares more than one `@cache` directive, the
configuration is read from the LAST declared `@cache` directive, and the
wrapped resolver behaves exactly as if the earlier occurrences were
absent. -/
theorem c9_last_directive_wins (d : DirectiveNode) (ds1 ds2 : List DirectiveNode)
    (hkind : d.kind = "Directive") (hname : d.name = "cache")
    (hafter : ∀ d' ∈ ds2, (d'.kind == "Directive" && d'.name == "cache") = false) :
    getCacheDirective ⟨some ⟨some (ds1 ++ d :: ds2)⟩⟩ = some d ∧
    ∀ (md5 : String → String) (resolve : Js → Js → Js → Info → Except Js Js)
      (store : Nat → Option Js) (fuel : Nat) (p a c : Js) (i : Info),
      fieldResolve md5 ⟨some ⟨some (ds1 ++ d :: ds2)⟩⟩ resolve store fuel p a c i =
        fieldResolve md5 ⟨some ⟨some [d]⟩⟩ resolve store fuel p a c i := by
  have hd : (d.kind == "Directive" && d.name == "cache") = true := by
    rw [hkind, hname]
    rfl
  have hnil : ds2.filter (fun x => x.kind == "Directive" && x.name == "cache") = [] := by
    rw [List.filter_eq_nil_iff]
    intro x hx
    simp [hafter x hx]
  have hfilter : (ds1 ++ d :: ds2).filter
      (fun x => x.kind == "Directive" && x.name == "cache") =
      ds1.filter (fun x => x.kind == "Directive" && x.name == "cache") ++ [d] := by
    simp [List.filter_append, List.filter_cons, hd, hnil]
  have hlast : getCacheDirective ⟨some ⟨some (ds1 ++ d :: ds2)⟩⟩ = some d := by
    unfold getCacheDirective
    dsimp only
    rw [hfilter]
    exact List.getLast?_concat _
  have hsingle : getCacheDirective ⟨some ⟨some [d]⟩⟩ = some d := by
    unfold getCacheDirective
    dsimp only
    simp [List.filter_cons, hd]
  refine ⟨hlast, ?_⟩
  intro md5 resolve store fuel p a c i
  unfold fieldResolve
  rw [hlast, hsingle]

theorem c9_last_directive_wins_witness :
    getCacheDirective ⟨some ⟨some ([dScopedEx] ++ dSharedEx :: [dOtherEx])⟩⟩ =
      some dSharedEx ∧
    fieldResolve id ⟨some ⟨some ([dScopedEx] ++ dSharedEx :: [dOtherEx])⟩⟩
        res42 emptyStore 1 pEx aEx cEx iEx =
      fieldResolve id ⟨some ⟨some [dSharedEx]⟩⟩ res42 emptyStore 1 pEx aEx cEx iEx := by
  have h := c9_last_directive_wins dSharedEx [dScopedEx] [dOtherEx] rfl rfl
    (by
      intro d' hd'
      simp only [List.mem_singleton] at hd'
      subst hd'
      rfl)
  exact ⟨h.1, h.2 id res42 emptyStore 1 pEx aEx cEx iEx⟩



/-- C7: on a cache miss, a SHARED-mode caller writes the processing
marker with ttl = pollingTimeout before invoking the resolver and the
completed marker (status/value) with ttl = ttl after it returns, while a
SCOPED-mode caller writes no processing marker and writes only the raw
result with ttl = ttl after the resolver returns. -/
theorem c7_miss_write_protocol (md5 : String → String) (field : Field)
    (d : DirectiveNode) (resolve : Js → Js → Js → Info → Except Js Js)
    (store : Nat → Option Js) (fuel : Nat) (p a c : Js) (i : Info)
    (v : Js) (tr : List Event)
    (hdir : getCacheDirective field = some d)
    (hread : readFromCache d (compileCacheKey md5 d p a i) store 0 fuel =
      some (Js.undef, tr))
    (hres : resolve p a c i = .ok v) :
    (isSharedCache d = true →
      fieldResolve md5 field resolve store fuel p a c i =
        some (.ok v, tr ++
          [.set (compileCacheKey md5 d p a i) (.obj [("status", .str "processing")])
             (getNumericDirectiveArgumentByName d "pollingTimeout" 900),
           .invoke p a c i,
           .set (compileCacheKey md5 d p a i)
             (.obj [("status", .str "completed"), ("value", v)])
             (getNumericDirectiveArgumentByName d "ttl" 900)])) ∧
    (isScopedCache d = true →
      fieldResolve md5 field resolve store fuel p a c i =
        some (.ok v, tr ++
          [.invoke p a c i,
           .set (compileCacheKey md5 d p a i) v
             (getNumericDirectiveArgumentByName d "ttl" 900)])) := by
  constructor
  · intro hsh
    exact fieldResolve_miss_shared_ok md5 field d resolve store fuel p a c i v tr
      hdir hread hsh hres
  · intro hsc
    exact fieldResolve_miss_notshared_ok md5 field d resolve store fuel p a c i v tr
      hdir hread (isScopedCache_not_shared d hsc) hres

theorem c7_miss_write_protocol_witness :
    (isSharedCache dScopedEx = true →
      fieldResolve id fScopedEx res42 emptyStore 1 pEx aEx cEx iEx =
        some (.ok (.num 42),
          [Event.get (compileCacheKey id dScopedEx pEx aEx iEx) none] ++
          [.set (compileCacheKey id dScopedEx pEx aEx iEx)
             (.obj [("status", .str "processing")])
             (getNumericDirectiveArgumentByName dScopedEx "pollingTimeout" 900),
           .invoke pEx aEx cEx iEx,
           .set (compileCacheKey id dScopedEx pEx aEx iEx)
             (.obj [("status", .str "completed"), ("value", .num 42)])
             (getNumericDirectiveArgumentByName dScopedEx "ttl" 900)])) ∧
    (isScopedCache dScopedEx = true →
      fieldResolve id fScopedEx res42 emptyStore 1 pEx aEx cEx iEx =
        some (.ok (.num 42),
          [Event.get (compileCacheKey id dScopedEx pEx aEx iEx) none] ++
          [.invoke pEx aEx cEx iEx,
           .set (compileCacheKey id dScopedEx pEx aEx iEx) (.num 42)
             (getNumericDirectiveArgumentByName dScopedEx "ttl" 900)])) :=
  c7_miss_write_protocol id fScopedEx dScopedEx res42 emptyStore 1 pEx aEx cEx iEx
    (.num 42) [Event.get (compileCacheKey id dScopedEx pEx aEx iEx) none]
    rfl rfl rfl

/-- C6: when the wrapped resolver rejects on a cache miss, the failure
propagates unmodified, no completed (or failed) entry is written after
the failure, and the only store write that may have occurred is the
SHARED-mode processing marker. -/
theorem c6_resolver_failure_atomicity (md5 : String → String) (field : Field)
    (d : DirectiveNode) (resolve : Js → Js → Js → Info → Except Js Js)
    (store : Nat → Option Js) (fuel : Nat) (p a c : Js) (i : Info)
    (e : Js) (tr : List Event)
    (hdir : getCacheDirective field = some d)
    (hread : readFromCache d (compileCacheKey md5 d p a i) store 0 fuel =
      some (Js.undef, tr))
    (hres : resolve p a c i = .error e) :
    fieldResolve md5 field resolve store fuel p a c i =
      some (.error e, tr ++
        (if isSharedCache d = true then
          [Event.set (compileCacheKey md5 d p a i)
             (.obj [("status", .str "processing")])
             (getNumericDirectiveArgumentByName d "pollingTimeout" 900)]
         else []) ++ [.invoke p a c i]) ∧
    countSets tr = 0 ∧ countInvokes tr = 0 := by
  have hpure := readFromCache_pure d (compileCacheKey md5 d p a i) store fuel 0
    Js.undef tr hread
  refine ⟨?_, hpure.1, hpure.2⟩
  rcases hsh : isSharedCache d with _ | _
  · have := fieldResolve_miss_notshared_err md5 field d resolve store fuel p a c i e tr
      hdir hread hsh hres
    simpa using this
  · have := fieldResolve_miss_shared_err md5 field d resolve store fuel p a c i e tr
      hdir hread hsh hres
    simpa using this

theorem c6_resolver_failure_atomicity_witness :
    fieldResolve id fSharedEx (fun _ _ _ _ => .error (.str "boom")) emptyStore 1
        pEx aEx cEx iEx =
      some (.error (.str "boom"),
        [Event.get (compileCacheKey id dSharedEx pEx aEx iEx) none] ++
        (if isSharedCache dSharedEx = true then
          [Event.set (compileCacheKey id dSharedEx pEx aEx iEx)
             (.obj [("status", .str "processing")])
             (getNumericDirectiveArgumentByName dSharedEx "pollingTimeout" 900)]
         else []) ++ [.invoke pEx aEx cEx iEx]) ∧
    countSets [Event.get (compileCacheKey id dSharedEx pEx aEx iEx) none] = 0 ∧
    countInvokes [Event.get (compileCacheKey id dSharedEx pEx aEx iEx) none] = 0 :=
  c6_resolver_failure_atomicity id fSharedEx dSharedEx
    (fun _ _ _ _ => .error (.str "boom")) emptyStore 1 pEx aEx cEx iEx
    (.str "boom") [Event.get (compileCacheKey id dSharedEx pEx aEx iEx) none]
    rfl rfl rfl



/-- C5: a SHARED-mode call that observes a `processing` entry does not
invoke the wrapped resolver during the observations; it sleeps
`pingInterval` milliseconds and re-reads the store, repeating until it
observes a `completed` entry (returning its stored value) or absence,
and only after observing absence does it stake the new claim and invoke
the resolver. -/
theorem c5_shared_polling (md5 : String → String) (field : Field) (d : DirectiveNode)
    (resolve : Js → Js → Js → Info → Except Js Js) (store : Nat → Option Js)
    (fuel k : Nat) (p a c : Js) (i : Info)
    (hdir : getCacheDirective field = some d)
    (hsh : isSharedCache d = true)
    (hk : k < fuel)
    (hproc : ∀ j, j < k → isProcessingRead (store j) = true) :
    countInvokes (pollTrace (compileCacheKey md5 d p a i)
      (getNumericDirectiveArgumentByName d "pingInterval" 1000) store 0 k) = 0 ∧
    countSets (pollTrace (compileCacheKey md5 d p a i)
      (getNumericDirectiveArgumentByName d "pingInterval" 1000) store 0 k) = 0 ∧
    (∀ ent : Js, store k = some ent →
      (ent.getProp "status").strEq "completed" = true →
      (ent.getProp "value").isUndef = false →
      fieldResolve md5 field resolve store fuel p a c i =
        some (.ok (ent.getProp "value"),
          pollTrace (compileCacheKey md5 d p a i)
            (getNumericDirectiveArgumentByName d "pingInterval" 1000) store 0 k ++
          [.get (compileCacheKey md5 d p a i) (some ent)])) ∧
    (store k = none → ∀ v : Js, resolve p a c i = .ok v →
      fieldResolve md5 field resolve store fuel p a c i =
        some (.ok v,
          (pollTrace (compileCacheKey md5 d p a i)
            (getNumericDirectiveArgumentByName d "pingInterval" 1000) store 0 k ++
           [.get (compileCacheKey md5 d p a i) none]) ++
          [.set (compileCacheKey md5 d p a i) (.obj [("status", .str "processing")])
             (getNumericDirectiveArgumentByName d "pollingTimeout" 900),
           .invoke p a c i,
           .set (compileCacheKey md5 d p a i)
             (.obj [("status", .str "completed"), ("value", v)])
             (getNumericDirectiveArgumentByName d "ttl" 900)])) := by
  have hproc0 : ∀ j, j < k → isProcessingRead (store (0 + j)) = true := by
    intro j hj
    rw [Nat.zero_add]
    exact hproc j hj
  refine ⟨pollTrace_no_invoke _ _ _ k 0, pollTrace_no_set _ _ _ k 0, ?_, ?_⟩
  · intro ent hsk hc hne
    have hterm : isProcessingRead (store (0 + k)) = false := by
      rw [Nat.zero_add, hsk]
      simpa [isProcessingRead] using strEq_unique (ent.getProp "status")
        "completed" "processing" (by decide) hc
    have hrd := readFromCache_poll d (compileCacheKey md5 d p a i) store hsh k 0 fuel
      hk hproc0 hterm
    rw [Nat.zero_add, hsk] at hrd
    dsimp only at hrd
    rw [if_pos hc] at hrd
    exact fieldResolve_hit md5 field d resolve store fuel p a c i
      (ent.getProp "value") _ hdir hrd hne
  · intro hsk v hres
    have hterm : isProcessingRead (store (0 + k)) = false := by
      rw [Nat.zero_add, hsk]
      rfl
    have hrd := readFromCache_poll d (compileCacheKey md5 d p a i) store hsh k 0 fuel
      hk hproc0 hterm
    rw [Nat.zero_add, hsk] at hrd
    dsimp only at hrd
    exact fieldResolve_miss_shared_ok md5 field d resolve store fuel p a c i v _
      hdir hrd hsh hres

theorem c5_shared_polling_witness :
    fieldResolve id fSharedEx res42 pollStoreEx 2 pEx aEx cEx iEx =
      some (.ok (completedEntryEx.getProp "value"),
        pollTrace (compileCacheKey id dSharedEx pEx aEx iEx)
          (getNumericDirectiveArgumentByName dSharedEx "pingInterval" 1000)
          pollStoreEx 0 1 ++
        [.get (compileCacheKey id dSharedEx pEx aEx iEx) (some completedEntryEx)]) :=
  (c5_shared_polling id fSharedEx dSharedEx res42 pollStoreEx 2 1 pEx aEx cEx iEx
    rfl rfl (by decide)
    (fun j hj => by
      have h0 : j = 0 := Nat.lt_one_iff.mp hj
      subst h0
      rfl)).2.2.1
    completedEntryEx rfl rfl rfl



/-- C10: a bare `cacheKey` token whose name is none of
parent/args/vars pushes an `undefined` entry (serialized as `null`)
into the hashed combination, so a spec containing such a token compiles
to a different key (for an injective digest) than the same spec with
the token removed; a dotted token with an unrecognized source
contributes nothing. -/
theorem c10_bare_unknown_token (md5 : String → String)
    (hinj : Function.Injective md5) (p a : Js) (i : Info)
    (d1 d2 : DirectiveNode) (A B : List String) (t : String)
    (hbare : splitDot2 t = (t, none))
    (hp : t ≠ "parent") (hargs : t ≠ "args") (hvars : t ≠ "vars")
    (h1 : cacheKeyTokens d1 = A ++ t :: B)
    (h2 : cacheKeyTokens d2 = A ++ B) :
    comboOfTokens p a i.variableValues (cacheKeyTokens d1) =
      comboOfTokens p a i.variableValues A ++
        Js.undef :: comboOfTokens p a i.variableValues B ∧
    stringifyElems (comboOfTokens p a i.variableValues (cacheKeyTokens d1)) =
      stringifyElems (comboOfTokens p a i.variableValues A) ++
        "null" :: stringifyElems (comboOfTokens p a i.variableValues B) ∧
    compileCacheKey md5 d1 p a i ≠ compileCacheKey md5 d2 p a i ∧
    (∀ (d3 : DirectiveNode) (u s pr : String), splitDot2 u = (s, some pr) →
      s ≠ "parent" → s ≠ "args" → s ≠ "vars" →
      cacheKeyTokens d3 = A ++ u :: B →
      compileCacheKey md5 d3 p a i = compileCacheKey md5 d2 p a i) := by
  have hcombo1 : comboOfTokens p a i.variableValues (cacheKeyTokens d1) =
      comboOfTokens p a i.variableValues A ++
        Js.undef :: comboOfTokens p a i.variableValues B := by
    rw [h1, comboOfTokens_append]
    have hct : comboOfTokens p a i.variableValues (t :: B) =
        tokenValues p a i.variableValues t ++ comboOfTokens p a i.variableValues B := rfl
    rw [hct, tokenValues_bare_unknown p a i.variableValues t hbare hp hargs hvars]
    rfl
  have hcombo2 : comboOfTokens p a i.variableValues (cacheKeyTokens d2) =
      comboOfTokens p a i.variableValues A ++ comboOfTokens p a i.variableValues B := by
    rw [h2, comboOfTokens_append]
  have hel1 : stringifyElems (comboOfTokens p a i.variableValues (cacheKeyTokens d1)) =
      stringifyElems (comboOfTokens p a i.variableValues A) ++
        "null" :: stringifyElems (comboOfTokens p a i.variableValues B) := by
    rw [hcombo1, stringifyElems_append]
    have hcons : stringifyElems (Js.undef :: comboOfTokens p a i.variableValues B) =
        "null" :: stringifyElems (comboOfTokens p a i.variableValues B) := rfl
    rw [hcons]
  have hlen : (serializedCombo d2 p a i.variableValues).length <
      (serializedCombo d1 p a i.variableValues).length := by
    unfold serializedCombo
    rw [hcombo2, hel1, stringifyElems_append]
    simp only [String.length_append]
    have hins := joinComma_insert_length "null" (by decide)
      (stringifyElems (comboOfTokens p a i.variableValues A))
      (stringifyElems (comboOfTokens p a i.variableValues B))
    omega
  have hserial : serializedCombo d1 p a i.variableValues ≠
      serializedCombo d2 p a i.variableValues := by
    intro hq
    rw [hq] at hlen
    omega
  refine ⟨hcombo1, hel1, ?_, ?_⟩
  · intro hkeys
    rw [compileCacheKey_eq, compileCacheKey_eq] at hkeys
    exact hserial (hinj (append_left_cancel_str "ch-" _ _ hkeys))
  · intro d3 u s pr hsplit hs1 hs2 hs3 h3
    have hser3 : serializedCombo d3 p a i.variableValues =
        serializedCombo d2 p a i.variableValues := by
      unfold serializedCombo
      rw [hcombo2, h3, comboOfTokens_append]
      have hc3 : comboOfTokens p a i.variableValues (u :: B) =
          tokenValues p a i.variableValues u ++ comboOfTokens p a i.variableValues B := rfl
      rw [hc3, tokenValues_dotted_unknown p a i.variableValues u s pr hsplit hs1 hs2 hs3,
        List.nil_append]
    rw [compileCacheKey_eq, compileCacheKey_eq, hser3]

theorem c10_bare_unknown_token_witness :
    comboOfTokens pEx aEx iEx.variableValues (cacheKeyTokens dKeyFooEx) =
      comboOfTokens pEx aEx iEx.variableValues ["parent"] ++
        Js.undef :: comboOfTokens pEx aEx iEx.variableValues [] ∧
    stringifyElems (comboOfTokens pEx aEx iEx.variableValues (cacheKeyTokens dKeyFooEx)) =
      stringifyElems (comboOfTokens pEx aEx iEx.variableValues ["parent"]) ++
        "null" :: stringifyElems (comboOfTokens pEx aEx iEx.variableValues []) ∧
    compileCacheKey id dKeyFooEx pEx aEx iEx ≠
      compileCacheKey id dKeyParentEx pEx aEx iEx ∧
    (∀ (d3 : DirectiveNode) (u s pr : String), splitDot2 u = (s, some pr) →
      s ≠ "parent" → s ≠ "args" → s ≠ "vars" →
      cacheKeyTokens d3 = ["parent"] ++ u :: [] →
      compileCacheKey id d3 pEx aEx iEx = compileCacheKey id dKeyParentEx pEx aEx iEx) :=
  c10_bare_unknown_token id (fun _ _ h => h) pEx aEx iEx dKeyFooEx dKeyParentEx
    ["parent"] [] "foo" (by decide) (by decide) (by decide) (by decide)
    (by decide) (by decide)



/-- C1 (code evidence): with a SCOPED directive, the first call on an
empty store invokes the resolver once and stores the raw value 42, but
a second call against the populated store STILL invokes the wrapped
resolver — the SCOPED read path takes `content.value` of the raw stored
value, which is `undefined`, so the populated store is treated as a
miss, contradicting the claimed zero-invocation round trip. -/
theorem c1_scoped_second_call_reinvokes :
    fieldResolve id fScopedEx res42 emptyStore 1 pEx aEx cEx iEx =
      some (.ok (.num 42),
        [.get (compileCacheKey id dScopedEx pEx aEx iEx) none,
         .invoke pEx aEx cEx iEx,
         .set (compileCacheKey id dScopedEx pEx aEx iEx) (.num 42) (some 900)]) ∧
    fieldResolve id fScopedEx res42 (fun _ => some (.num 42)) 1 pEx aEx cEx iEx =
      some (.ok (.num 42),
        [.get (compileCacheKey id dScopedEx pEx aEx iEx) (some (.num 42)),
         .invoke pEx aEx cEx iEx,
         .set (compileCacheKey id dScopedEx pEx aEx iEx) (.num 42) (some 900)]) ∧
    countInvokes
      [.get (compileCacheKey id dScopedEx pEx aEx iEx) (some (.num 42)),
       .invoke pEx aEx cEx iEx,
       .set (compileCacheKey id dScopedEx pEx aEx iEx) (.num 42) (some 900)] = 1 :=
  ⟨rfl, rfl, rfl⟩

/-- C2 counterexample: a cacheKey declared as the GraphQL list
["parent.id"] is replaced by the default token sequence — it does not
yield the same canonical token sequence as the single-token string form
"parent.id", because a ListValue node has no string `.value`. -/
theorem c2_cacheKey_list_counterexample :
    cacheKeyTokens dKeyListEx = ["parent", "args", "vars"] ∧
    cacheKeyTokens dKeyStrEx = ["parent.id"] ∧
    cacheKeyTokens dKeyListEx ≠ cacheKeyTokens dKeyStrEx :=
  ⟨by decide, by decide, by decide⟩

/-- C2 (amended): a cacheKey supplied as a single string is used as
given — trimmed and split on commas into its token sequence — while a
cacheKey supplied as a list value yields no string and falls back to
the default token sequence parent,args,vars. -/
theorem c2_cacheKey_normalization (d : DirectiveNode) (as : List Argument)
    (arg : Argument)
    (hargs : d.arguments = some as)
    (hfind : (as.filter fun x => x.kind == "Argument" && x.name == "cacheKey").head? =
      some arg) :
    (∀ s, arg.value = .strLike s → cacheKeyTokens d = jsSplit ',' (jsTrim s)) ∧
    (∀ vs, arg.value = .listVal vs → cacheKeyTokens d = ["parent", "args", "vars"]) := by
  constructor
  · intro s hv
    unfold cacheKeyTokens getStringDirectiveArgumentByName getDirectiveArgumentByName
    rw [hargs]
    dsimp only
    rw [hfind]
    dsimp only
    rw [hv]
  · intro vs hv
    unfold cacheKeyTokens getStringDirectiveArgumentByName getDirectiveArgumentByName
    rw [hargs]
    dsimp only
    rw [hfind]
    dsimp only
    rw [hv]
    dsimp only
    decide

theorem c2_cacheKey_normalization_witness :
    cacheKeyTokens dKeyStrEx = jsSplit ',' (jsTrim "parent.id") :=
  (c2_cacheKey_normalization dKeyStrEx
    [⟨"Argument", "cacheKey", .strLike "parent.id"⟩]
    ⟨"Argument", "cacheKey", .strLike "parent.id"⟩ rfl rfl).1 "parent.id" rfl

/-- C3 (code evidence): with pollingTimeout omitted, the processing
marker is written with ttl 900 — the in-code default — while an
explicit pollingTimeout: 30 writes ttl 30; omission is therefore NOT
identical to supplying the documented default of 30 seconds. -/
theorem c3_pollingTimeout_default_900 :
    getNumericDirectiveArgumentByName dSharedEx "pollingTimeout" 900 = some 900 ∧
    getNumericDirectiveArgumentByName dPolling30Ex "pollingTimeout" 900 = some 30 ∧
    fieldResolve id fSharedEx res42 emptyStore 1 pEx aEx cEx iEx =
      some (.ok (.num 42),
        [.get (compileCacheKey id dSharedEx pEx aEx iEx) none,
         .set (compileCacheKey id dSharedEx pEx aEx iEx)
           (.obj [("status", .str "processing")]) (some 900),
         .invoke pEx aEx cEx iEx,
         .set (compileCacheKey id dSharedEx pEx aEx iEx)
           (.obj [("status", .str "completed"), ("value", .num 42)]) (some 900)]) ∧
    fieldResolve id fPolling30Ex res42 emptyStore 1 pEx aEx cEx iEx =
      some (.ok (.num 42),
        [.get (compileCacheKey id dPolling30Ex pEx aEx iEx) none,
         .set (compileCacheKey id dPolling30Ex pEx aEx iEx)
           (.obj [("status", .str "processing")]) (some 30),
         .invoke pEx aEx cEx iEx,
         .set (compileCacheKey id dPolling30Ex pEx aEx iEx)
           (.obj [("status", .str "completed"), ("value", .num 42)]) (some 900)]) ∧
    (some (900 : Int) ≠ some (30 : Int)) :=
  ⟨rfl, rfl, rfl, rfl, by decide⟩


end ApolloCacheDirective
